import Mathlib

/-
Verification of the string utilities in src/xtd.strings/include/xtd/strings.hpp.

Modelling conventions:
* a C++ character sequence (std::basic_string<Char> for any character width) is a
  `List Nat` of code-unit values;
* size_t arithmetic is carried out modulo 2 ^ 64 where the C++ code relies on
  unsigned wrap-around (std::basic_string::npos, the subtraction in ends_width);
* the locale case tables used by std::tolower / std::toupper are external to the
  repository, so every case-mapping definition is parameterised by the table
  (a function `Nat → Nat`);
* the low-level formatter __format (declared in __format.hpp, which is not part
  of the provided sources) is likewise a parameter of `format`; the repository
  code only decides how the arguments are coerced before reaching it.
-/

namespace xtd

/-- Modelled from the spec: the split policy enumeration (declared in
string_split_options.hpp, which is not among the provided sources).  The spec
describes it as the two-valued set {keep-empty-entries, remove-empty-entries};
strings.hpp refers to the values `string_split_options::none` (keep) and
`string_split_options::remove_empty_entries`. -/
inductive string_split_options where
  | none
  | remove_empty_entries
deriving DecidableEq

/-- Value of std::basic_string::npos, i.e. size_t(-1). -/
def npos : Nat := 2 ^ 64 - 1

/-- size_t subtraction `a - b` with unsigned wrap-around modulo 2 ^ 64. -/
def size_t_sub (a b : Nat) : Nat := (a % 2 ^ 64 + 2 ^ 64 - b % 2 ^ 64) % 2 ^ 64

/-- Model of std::basic_string::find(value): the smallest position at which
`value` occurs entirely inside `str` (positions 0 .. str.length are candidates,
so find of the empty string is 0), or npos when there is none. -/
def find (str value : List Nat) : Nat :=
  match (List.range (str.length + 1)).find? (fun i => (str.drop i).take value.length == value) with
  | some i => i
  | _ => npos

/-- Model of std::basic_string::rfind(value): the largest position at which
`value` occurs entirely inside `str` (so rfind of the empty string is
str.length), or npos when there is none. -/
def rfind (str value : List Nat) : Nat :=
  match ((List.range (str.length + 1)).reverse).find? (fun i => (str.drop i).take value.length == value) with
  | some i => i
  | _ => npos

/-- Model of xtd::strings::contains (strings.hpp lines 95-98):
`return str.find(value) != str.npos;`. -/
def contains (str value : List Nat) : Bool := find str value != npos

/-- Model of the narrow-character xtd::strings::to_lower (strings.hpp lines
345-351): every code unit is pushed through std::tolower(c, locale()), which we
abstract as the table `tbl`. -/
def to_lower (tbl : Nat → Nat) (str : List Nat) : List Nat := str.map tbl

/-- Model of xtd::strings::ends_width(str, value, ignore_case) (strings.hpp
lines 121-126): `return str.rfind(value) - value.size() == 0;`, with both
operands passed through to_lower first when ignore_case is set.  The size_t
subtraction wraps around, so the test holds exactly when rfind returns
value.size(). -/
def ends_width (tbl : Nat → Nat) (str value : List Nat) (ignore_case : Bool) : Bool :=
  if ignore_case then
    size_t_sub (rfind (to_lower tbl str) (to_lower tbl value)) (to_lower tbl value).length == 0
  else
    size_t_sub (rfind str value) value.length == 0

/-- Model of char_traits::compare over the common prefix of the two sequences:
first position where they differ decides the sign, equal prefixes give 0. -/
def traits_compare : List Nat → List Nat → Int
  | a :: as, b :: bs =>
    if a < b then -1 else if b < a then 1 else traits_compare as bs
  | _, _ => 0

/-- Model of std::basic_string::compare: the traits comparison over the common
prefix when it is decisive, otherwise the (signed) length difference. -/
def string_compare (a b : List Nat) : Int :=
  if traits_compare a b ≠ 0 then traits_compare a b
  else (a.length : Int) - (b.length : Int)

/-- Model of xtd::strings::compare(str_a, str_b, ignore_case) (strings.hpp
lines 41-46): `if (ignore_case) return to_lower(str_a).compare(to_lower(str_b));
return str_a.compare(str_b);`. -/
def compare (tbl : Nat → Nat) (str_a str_b : List Nat) (ignore_case : Bool) : Int :=
  if ignore_case then string_compare (to_lower tbl str_a) (to_lower tbl str_b)
  else string_compare str_a str_b

/-- Per-code-unit mapping used by the char16_t / char32_t case conversions
(strings.hpp lines 354-368 and 385-399): a code unit c ≤ 0xFF is cast to char,
pushed through the locale table `tbl`, and the result cast back to the wide
character type (width `w` = 2 ^ 16 or 2 ^ 32); a code unit above 0xFF is kept
unchanged. -/
def case_mapped (w : Nat) (tbl : Nat → Nat) (c : Nat) : Nat :=
  if c ≤ 255 then tbl c % w else c

/-- Model of xtd::strings::to_lower for char16_t (strings.hpp lines 354-360). -/
def to_lower_16 (tbl : Nat → Nat) (str : List Nat) : List Nat :=
  str.map (case_mapped (2 ^ 16) tbl)

/-- Model of xtd::strings::to_lower for char32_t (strings.hpp lines 362-368). -/
def to_lower_32 (tbl : Nat → Nat) (str : List Nat) : List Nat :=
  str.map (case_mapped (2 ^ 32) tbl)

/-- Model of xtd::strings::to_upper for char16_t (strings.hpp lines 385-391). -/
def to_upper_16 (tbl : Nat → Nat) (str : List Nat) : List Nat :=
  str.map (case_mapped (2 ^ 16) tbl)

/-- Model of xtd::strings::to_upper for char32_t (strings.hpp lines 393-399). -/
def to_upper_32 (tbl : Nat → Nat) (str : List Nat) : List Nat :=
  str.map (case_mapped (2 ^ 32) tbl)

/-- Model of the effective separator set (strings.hpp line 229):
`separators.size() == 0 ? std::vector<Char> {9, 10, 11, 12, 13, 32} :
separators`. -/
def split_char_separators (separators : List Nat) : List Nat :=
  if separators.length = 0 then [9, 10, 11, 12, 13, 32] else separators

/-- Model of the scanning loop of xtd::strings::split (strings.hpp lines
230-241).  The remaining input `c :: rest` stands for the iterator positions
still to visit; `list` and `sub` are the accumulated result and the pending
token buffer.  One iteration: a non-separator character is appended to the
pending buffer; a close happens when the character is a separator or the last
one, subject to the empty-entry policy; when the result already holds
`count - 1` tokens the close instead appends the pending buffer concatenated
with the substring of the original input taken from position
`i + (is_separator ? 1 : 0)` for `length - i + (is_separator ? 1 : 0)`
characters — which is `rest` when the trigger is a separator and `c :: rest`
(duplicating c, already in the buffer) otherwise — and returns at once.
After the loop the accumulated list is returned with no further close. -/
def splitAux (seps : List Nat) (count : Nat) (options : string_split_options) :
    List Nat → List (List Nat) → List Nat → List (List Nat)
  | [], list, _sub => list
  | c :: rest, list, sub =>
    let is_sep := List.contains seps c
    let sub1 := if is_sep = true then sub else sub ++ [c]
    if (rest = [] ∨ is_sep = true) ∧
        (sub1 ≠ [] ∨ options ≠ string_split_options.remove_empty_entries) then
      if list.length = count - 1 then
        list ++ [sub1 ++ (if is_sep = true then rest else c :: rest)]
      else
        splitAux seps count options rest (list ++ [sub1]) []
    else
      splitAux seps count options rest list sub1

/-- Model of xtd::strings::split(str, separators, count, options) (strings.hpp
lines 222-244): count 0 returns the empty sequence, count 1 returns the whole
input unscanned, otherwise the scanning loop runs over the effective separator
set.  The unbounded overloads of the source call this with
std::numeric_limits<size_t>::max() = 2 ^ 64 - 1. -/
def split (str separators : List Nat) (count : Nat) (options : string_split_options) :
    List (List Nat) :=
  if count = 0 then []
  else if count = 1 then [str]
  else splitAux (split_char_separators separators) count options str [] []

/-- Values passed to xtd::strings::format, by C++ static type: owned narrow and
wide strings (std::string / std::wstring), raw character pointers, and any
other argument type (collapsed to a scalar payload, since convert_param treats
every non-string type alike). -/
inductive cpp_value where
  | std_string (data : List Nat)
  | std_wstring (data : List Nat)
  | char_ptr (data : List Nat)
  | wchar_ptr (data : List Nat)
  | scalar (v : Int)
deriving DecidableEq

/-- True exactly on the two owned string types, i.e. the types matched by the
two if-constexpr branches of convert_param. -/
def is_char_sequence : cpp_value → Bool
  | cpp_value.std_string _ => true
  | cpp_value.std_wstring _ => true
  | _ => false

/-- Model of xtd::strings::convert_param (strings.hpp lines 406-416): a
std::string or std::wstring argument is replaced by the raw pointer to its
character data (.c_str()); every other argument is forwarded unchanged. -/
def convert_param : cpp_value → cpp_value
  | cpp_value.std_string s => cpp_value.char_ptr s
  | cpp_value.std_wstring s => cpp_value.wchar_ptr s
  | v => v

/-- Model of xtd::strings::format (strings.hpp lines 202-207):
`return __format(fmt.c_str(), convert_param(std::forward<Args>(args)) ...);`.
The low-level formatter __format lives in __format.hpp (not part of the
provided sources) and is abstracted as the parameter `low_level`. -/
def format (low_level : List Nat → List cpp_value → List Nat)
    (fmt : List Nat) (args : List cpp_value) : List Nat :=
  low_level fmt (args.map convert_param)

/-- True when some character of `t` belongs to the separator set `seps`. -/
def has_sep (seps t : List Nat) : Bool := t.any (fun c => List.contains seps c)

/-- C1: evaluation of split at the count-limit truncation.  On "a-b-c" with
separator '-', count 2 and the keep-empty policy the code returns ["a", "bc"]:
the '-' that triggered the truncation is dropped from the final element, so the
concatenation property of the claim fails ("a" ++ "-" ++ "bc" ≠ "a-b-c").  On
"a-b" with count 2 the truncating close fires on the last character, which is
then duplicated: the code returns ["a", "bb"]. -/
theorem C1_truncation_drops_delimiter :
    split [97, 45, 98, 45, 99] [45] 2 string_split_options.none = [[97], [98, 99]] ∧
    split [97, 45, 98] [45] 2 string_split_options.none = [[97], [98, 98]] := by
  decide

/-- C2: evaluation of split at end-of-input.  The loop performs no close after
the last character has been consumed, so splitting the empty string with the
keep-empty policy returns the empty sequence (not [""]), and splitting "a-"
returns ["a"] with no trailing empty token. -/
theorem C2_no_end_of_input_close :
    split ([] : List Nat) [45] (2 ^ 64 - 1) string_split_options.none = [] ∧
    split [97, 45] [45] (2 ^ 64 - 1) string_split_options.none = [[97]] := by
  decide

/-- C3: evaluation of ends_width.  The code tests rfind(value) == value.size()
instead of rfind(value) == str.size() - value.size(): on str = "abc",
value = "bc" it returns false although "bc" is a suffix of "abc", and on
str = "xxbcyy", value = "bc" it returns true although "bc" is not a suffix. -/
theorem C3_ends_width_not_a_suffix_check :
    ends_width (fun c => c) [97, 98, 99] [98, 99] false = false ∧
    ends_width (fun c => c) [120, 120, 98, 99, 121, 121] [98, 99] false = true := by
  decide

/-- C4 counterexample: split("a-_aa-_", {'-','_'}, unbounded, keep-empty) does
not return the five-element sequence ["", "", "aa", "", ""] stated by the
claim. -/
theorem C4_counterexample :
    split [97, 45, 95, 97, 97, 45, 95] [45, 95] (2 ^ 64 - 1) string_split_options.none ≠
      [[], [], [97, 97], [], []] := by
  decide

/-- C4 (amended): split("a-_aa-_", {'-','_'}, unbounded, keep-empty) returns
the four-element sequence ["a", "", "aa", ""]: the leading character 'a' opens
the first token, and the loop emits no empty token for the trailing '_'. -/
theorem C4_actual_output :
    split [97, 45, 95, 97, 97, 45, 95] [45, 95] (2 ^ 64 - 1) string_split_options.none =
      [[97], [], [97, 97], []] := by
  decide

/-- C5: format hands the low-level formatter exactly the pointwise
convert_param image of its argument list; convert_param turns an owned narrow
or wide string into the raw pointer to its character data and forwards every
other argument unchanged. -/
theorem C5_convert_param_coercion (low_level : List Nat → List cpp_value → List Nat)
    (fmt : List Nat) (args : List cpp_value) :
    format low_level fmt args = low_level fmt (args.map convert_param) ∧
    (∀ s, convert_param (cpp_value.std_string s) = cpp_value.char_ptr s) ∧
    (∀ s, convert_param (cpp_value.std_wstring s) = cpp_value.wchar_ptr s) ∧
    (∀ v, is_char_sequence v = false → convert_param v = v) := by
  refine ⟨rfl, fun s => rfl, fun s => rfl, fun v hv => ?_⟩
  cases v <;> simp_all [convert_param, is_char_sequence]

/-- C5 witness: a non-string argument (here the scalar 5) satisfies the
hypothesis of the pass-through conjunct and is indeed forwarded unchanged. -/
theorem C5_convert_param_coercion_witness :
    is_char_sequence (cpp_value.scalar 5) = false ∧
    convert_param (cpp_value.scalar 5) = cpp_value.scalar 5 :=
  ⟨rfl, (C5_convert_param_coercion (fun _ _ => []) [] []).2.2.2 (cpp_value.scalar 5) rfl⟩

/-- Helper: traits_compare is exactly antisymmetric. -/
theorem traits_compare_swap (a : List Nat) : ∀ b, traits_compare a b = -traits_compare b a := by
  induction a with
  | nil => intro b; cases b <;> simp [traits_compare]
  | cons x xs ih =>
    intro b
    cases b with
    | nil => simp [traits_compare]
    | cons y ys =>
      simp only [traits_compare]
      rcases Nat.lt_trichotomy x y with h | h | h
      · rw [if_pos h, if_neg (Nat.lt_asymm h), if_pos h]
      · subst h
        rw [if_neg (Nat.lt_irrefl x), if_neg (Nat.lt_irrefl x), if_neg (Nat.lt_irrefl x),
          if_neg (Nat.lt_irrefl x)]
        exact ih ys
      · rw [if_neg (Nat.lt_asymm h), if_pos h, if_pos h]
        simp

/-- Helper: string_compare is exactly antisymmetric. -/
theorem string_compare_swap (a b : List Nat) : string_compare a b = -string_compare b a := by
  by_cases h : traits_compare a b = 0
  · have h2 : traits_compare b a = 0 := by
      have := traits_compare_swap a b
      omega
    simp only [string_compare, h, h2]
    simp
  · have h2 : traits_compare b a ≠ 0 := by
      have := traits_compare_swap a b
      omega
    simp only [string_compare, if_pos h, if_pos h2, ne_eq, not_false_eq_true, if_true]
    have := traits_compare_swap a b
    omega

/-- C9: case-insensitive compare is sign-antisymmetric: compare(a, b, true)
and compare(b, a, true) are zero together, and one is negative exactly when
the other is positive. -/
theorem C9_compare_ignore_case_sign_antisymmetric (tbl : Nat → Nat) (a b : List Nat) :
    (compare tbl a b true = 0 ↔ compare tbl b a true = 0) ∧
    (compare tbl a b true < 0 ↔ 0 < compare tbl b a true) ∧
    (0 < compare tbl a b true ↔ compare tbl b a true < 0) := by
  have key : compare tbl a b true = -compare tbl b a true := by
    simp only [compare, if_pos]
    exact string_compare_swap _ _
  refine ⟨?_, ?_, ?_⟩ <;> omega

/-- C10: contains(str, value) with value the empty string returns true for
every str, including the empty one, because find locates the empty string at
position 0. -/
theorem C10_contains_empty_value (str : List Nat) : contains str [] = true := by
  have hfind : find str [] = 0 := by
    unfold find
    rw [List.range_succ_eq_map]
    rw [List.find?_cons_of_pos _ (by simp)]
  simp only [contains, hfind, npos]
  decide

/-- Helper: getD of a mapped list at an in-range position. -/
theorem case_mapped_getD_of_lt (w : Nat) (tbl : Nat → Nat) (s : List Nat) (i : Nat)
    (hi : i < s.length) :
    (s.map (case_mapped w tbl)).getD i 0 = case_mapped w tbl (s.getD i 0) := by
  rw [List.getD_eq_getElem _ _ (by simpa using hi), List.getD_eq_getElem _ _ hi,
    List.getElem_map]

/-- C8: the char16_t and char32_t case conversions preserve the length of the
input, keep every code unit above 255 unchanged at its position, and map every
code unit up to 255 through the locale's single-byte case table (composed with
the cast back to the wide character width). -/
theorem C8_wide_case_conversion (tl16 tu16 tl32 tu32 : Nat → Nat) (s : List Nat) :
    ((to_lower_16 tl16 s).length = s.length ∧ (to_upper_16 tu16 s).length = s.length ∧
      (to_lower_32 tl32 s).length = s.length ∧ (to_upper_32 tu32 s).length = s.length) ∧
    (∀ i, 255 < s.getD i 0 →
      (to_lower_16 tl16 s).getD i 0 = s.getD i 0 ∧
      (to_upper_16 tu16 s).getD i 0 = s.getD i 0 ∧
      (to_lower_32 tl32 s).getD i 0 = s.getD i 0 ∧
      (to_upper_32 tu32 s).getD i 0 = s.getD i 0) ∧
    (∀ i, i < s.length → s.getD i 0 ≤ 255 →
      (to_lower_16 tl16 s).getD i 0 = tl16 (s.getD i 0) % 2 ^ 16 ∧
      (to_upper_16 tu16 s).getD i 0 = tu16 (s.getD i 0) % 2 ^ 16 ∧
      (to_lower_32 tl32 s).getD i 0 = tl32 (s.getD i 0) % 2 ^ 32 ∧
      (to_upper_32 tu32 s).getD i 0 = tu32 (s.getD i 0) % 2 ^ 32) := by
  have Hhigh : ∀ (w : Nat) (tbl : Nat → Nat) (i : Nat), 255 < s.getD i 0 →
      (s.map (case_mapped w tbl)).getD i 0 = s.getD i 0 := by
    intro w tbl i hgt
    by_cases h : i < s.length
    · rw [case_mapped_getD_of_lt _ _ _ _ h, case_mapped, if_neg (by omega)]
    · have hd : s.getD i 0 = 0 := List.getD_eq_default _ _ (by omega)
      omega
  have Hlow : ∀ (w : Nat) (tbl : Nat → Nat) (i : Nat), i < s.length → s.getD i 0 ≤ 255 →
      (s.map (case_mapped w tbl)).getD i 0 = tbl (s.getD i 0) % w := by
    intro w tbl i h hle
    rw [case_mapped_getD_of_lt _ _ _ _ h, case_mapped, if_pos hle]
  refine ⟨⟨by simp [to_lower_16], by simp [to_upper_16], by simp [to_lower_32],
      by simp [to_upper_32]⟩, ?_, ?_⟩
  · intro i hgt
    exact ⟨Hhigh _ _ i hgt, Hhigh _ _ i hgt, Hhigh _ _ i hgt, Hhigh _ _ i hgt⟩
  · intro i h hle
    exact ⟨Hlow _ _ i h hle, Hlow _ _ i h hle, Hlow _ _ i h hle, Hlow _ _ i h hle⟩

/-- C8 witness: on the string [65, 300] with an explicit table, the code unit
300 > 255 at position 1 is returned unchanged. -/
theorem C8_wide_case_conversion_witness :
    255 < ([65, 300] : List Nat).getD 1 0 ∧
    (to_lower_16 (fun c => c + 32) [65, 300]).getD 1 0 = ([65, 300] : List Nat).getD 1 0 :=
  ⟨by decide,
    ((C8_wide_case_conversion (fun c => c + 32) (fun c => c) (fun c => c) (fun c => c)
      [65, 300]).2.1 1 (by decide)).1⟩

/-- Helper: unfolding splitAux on the empty remainder: the loop ends and the
accumulated list is returned with no further close. -/
theorem splitAux_nil (seps : List Nat) (count : Nat) (options : string_split_options)
    (list : List (List Nat)) (sub : List Nat) :
    splitAux seps count options [] list sub = list := rfl

/-- Helper: unfolding splitAux when the close condition holds and the result
already has count - 1 entries: the truncated final token is appended and the
scan stops. -/
theorem splitAux_cons_trunc (seps : List Nat) (count : Nat) (options : string_split_options)
    (c : Nat) (rest : List Nat) (list : List (List Nat)) (sub : List Nat)
    (hclose : (rest = [] ∨ List.contains seps c = true) ∧
      ((if List.contains seps c = true then sub else sub ++ [c]) ≠ [] ∨
        options ≠ string_split_options.remove_empty_entries))
    (htr : list.length = count - 1) :
    splitAux seps count options (c :: rest) list sub =
      list ++ [(if List.contains seps c = true then sub else sub ++ [c]) ++
        (if List.contains seps c = true then rest else c :: rest)] := by
  simp only [splitAux]
  rw [if_pos hclose, if_pos htr]

/-- Helper: unfolding splitAux on a normal close: the pending token is pushed
and the scan continues with an empty buffer. -/
theorem splitAux_cons_push (seps : List Nat) (count : Nat) (options : string_split_options)
    (c : Nat) (rest : List Nat) (list : List (List Nat)) (sub : List Nat)
    (hclose : (rest = [] ∨ List.contains seps c = true) ∧
      ((if List.contains seps c = true then sub else sub ++ [c]) ≠ [] ∨
        options ≠ string_split_options.remove_empty_entries))
    (htr : list.length ≠ count - 1) :
    splitAux seps count options (c :: rest) list sub =
      splitAux seps count options rest
        (list ++ [if List.contains seps c = true then sub else sub ++ [c]]) [] := by
  simp only [splitAux]
  rw [if_pos hclose, if_neg htr]

/-- Helper: unfolding splitAux when no close happens: the scan continues with
the updated pending buffer. -/
theorem splitAux_cons_skip (seps : List Nat) (count : Nat) (options : string_split_options)
    (c : Nat) (rest : List Nat) (list : List (List Nat)) (sub : List Nat)
    (hclose : ¬((rest = [] ∨ List.contains seps c = true) ∧
      ((if List.contains seps c = true then sub else sub ++ [c]) ≠ [] ∨
        options ≠ string_split_options.remove_empty_entries))) :
    splitAux seps count options (c :: rest) list sub =
      splitAux seps count options rest list
        (if List.contains seps c = true then sub else sub ++ [c]) := by
  simp only [splitAux]
  rw [if_neg hclose]

/-- Helper: the updated pending buffer stays separator-free: when c is a
separator the buffer is unchanged, otherwise the appended c is not a
separator. -/
theorem has_sep_sub1 (seps sub : List Nat) (c : Nat) (hsub : has_sep seps sub = false) :
    has_sep seps (if List.contains seps c = true then sub else sub ++ [c]) = false := by
  by_cases hsep : List.contains seps c = true
  · rw [if_pos hsep]; exact hsub
  · rw [if_neg hsep]
    simp only [has_sep, List.any_append, List.any_cons, List.any_nil, Bool.or_false]
    simp only [has_sep] at hsub
    rw [hsub, Bool.false_or]
    exact Bool.eq_false_iff.mpr hsep

/-- Helper invariant for the scanning loop: starting from a separator-free
pending buffer and an accumulated list of at most count - 1 separator-free
tokens, any token of the final result that contains a separator character is
the last one, and then the result has exactly count elements (i.e. it is the
token appended by the count-limit truncation). -/
theorem splitAux_dirty_token_is_truncated (seps : List Nat) (count : Nat)
    (options : string_split_options) (hcount : 2 ≤ count) :
    ∀ (s : List Nat) (acc : List (List Nat)) (sub : List Nat),
      acc.length ≤ count - 1 →
      (∀ t ∈ acc, has_sep seps t = false) →
      has_sep seps sub = false →
      ∀ (i : Nat) (h : i < (splitAux seps count options s acc sub).length),
        has_sep seps ((splitAux seps count options s acc sub).get ⟨i, h⟩) = true →
        i + 1 = (splitAux seps count options s acc sub).length ∧
        (splitAux seps count options s acc sub).length = count := by
  intro s
  induction s with
  | nil =>
    intro acc sub _ hacc _
    rw [splitAux_nil]
    intro i h hdirty
    rw [hacc _ (List.get_mem acc i h)] at hdirty
    exact absurd hdirty (by simp)
  | cons c rest ih =>
    intro acc sub hlen hacc hsub
    by_cases hclose : (rest = [] ∨ List.contains seps c = true) ∧
        ((if List.contains seps c = true then sub else sub ++ [c]) ≠ [] ∨
          options ≠ string_split_options.remove_empty_entries)
    · by_cases htr : acc.length = count - 1
      · rw [splitAux_cons_trunc seps count options c rest acc sub hclose htr]
        intro i h hdirty
        have hlen2 : i < acc.length + 1 := by simpa using h
        by_cases hi : i < acc.length
        · exfalso
          rw [List.get_append i hi, hacc _ (List.get_mem acc i hi)] at hdirty
          exact absurd hdirty (by simp)
        · have hieq : i = acc.length := by omega
          refine ⟨by simp [hieq], by simp; omega⟩
      · rw [splitAux_cons_push seps count options c rest acc sub hclose htr]
        refine ih _ [] (by simp; omega) ?_ rfl
        intro t ht
        rcases List.mem_append.1 ht with ht1 | ht1
        · exact hacc t ht1
        · have : t = if List.contains seps c = true then sub else sub ++ [c] := by
            simpa using ht1
          rw [this]
          exact has_sep_sub1 seps sub c hsub
    · rw [splitAux_cons_skip seps count options c rest acc sub hclose]
      exact ih acc _ hlen hacc (has_sep_sub1 seps sub c hsub)

/-- C6: any token of split(str, separators, count, options) that contains a
character of the effective separator set is the final token of a result of
exactly count elements — i.e. either the truncated final token appended when
the count limit is reached before input exhaustion, or the whole unscanned
input returned for count = 1.  Contrapositively, no separator character ever
appears inside any other token. -/
theorem C6_separator_only_in_truncated_token (str separators : List Nat) (count : Nat)
    (options : string_split_options) :
    ∀ (i : Nat) (h : i < (split str separators count options).length),
      has_sep (split_char_separators separators)
          ((split str separators count options).get ⟨i, h⟩) = true →
      i + 1 = (split str separators count options).length ∧
      (split str separators count options).length = count := by
  by_cases h0 : count = 0
  · have he : split str separators count options = [] := by
      rw [split, if_pos h0]
    rw [he]
    intro i h
    exact absurd h (by simp)
  · by_cases h1 : count = 1
    · have he : split str separators count options = [str] := by
        rw [split, if_neg h0, if_pos h1]
      rw [he]
      intro i h _
      have : i = 0 := by simpa using h
      subst this
      simp [h1]
    · have he : split str separators count options =
          splitAux (split_char_separators separators) count options str [] [] := by
        rw [split, if_neg h0, if_neg h1]
      rw [he]
      exact splitAux_dirty_token_is_truncated _ count options (by omega) str [] []
        (by simp) (by simp) rfl

/-- C6 witness: for count = 1 the single returned element is the unscanned
input "-", which consists of the separator character; it is the final token and
the result length equals count. -/
theorem C6_separator_only_in_truncated_token_witness :
    0 + 1 = (split [45] [45] 1 string_split_options.none).length ∧
    (split [45] [45] 1 string_split_options.none).length = 1 :=
  C6_separator_only_in_truncated_token [45] [45] 1 string_split_options.none 0
    (by decide) (by decide)

/-- Helper: scanning a non-empty separator-free input appends exactly one
token, the pending buffer concatenated with the whole input, provided the
accumulated list is not yet at the truncation threshold. -/
theorem splitAux_sep_free_input (seps : List Nat) (count : Nat)
    (options : string_split_options) :
    ∀ (s : List Nat) (acc : List (List Nat)) (sub : List Nat),
      s ≠ [] → has_sep seps s = false → acc.length ≠ count - 1 →
      splitAux seps count options s acc sub = acc ++ [sub ++ s] := by
  intro s
  induction s with
  | nil => intro acc sub hne; exact absurd rfl hne
  | cons c rest ih =>
    intro acc sub _ hclean hacc
    have hcsep : List.contains seps c = false := by
      simp only [has_sep, List.any_cons] at hclean
      exact (Bool.or_eq_false_iff.1 hclean).1
    have hrest : has_sep seps rest = false := by
      simp only [has_sep, List.any_cons] at hclean
      exact (Bool.or_eq_false_iff.1 hclean).2
    have hsub1 : (if List.contains seps c = true then sub else sub ++ [c]) = sub ++ [c] :=
      if_neg (by rw [hcsep]; exact Bool.false_ne_true)
    by_cases hr : rest = []
    · subst hr
      rw [splitAux_cons_push seps count options c [] acc sub
        (by refine ⟨Or.inl rfl, Or.inl ?_⟩; rw [hsub1]; simp) hacc]
      rw [splitAux_nil, hsub1]
    · rw [splitAux_cons_skip seps count options c rest acc sub]
      · rw [ih acc _ hr hrest hacc, hsub1]
        simp
      · intro hcl
        rcases hcl.1 with h | h
        · exact hr h
        · rw [hcsep] at h; cases h

/-- C7 counterexample: the idempotence claim fails on the code.  The empty
token "" of split("-a", {'-'}, unbounded, keep-empty) re-splits to the empty
sequence, not to [""]; and the truncated final token "bc-d" of
split("a-b-c-d", {'-'}, 2, keep-empty) contains a separator and re-splits into
two tokens. -/
theorem C7_counterexample :
    ([] : List Nat) ∈ split [45, 97] [45] (2 ^ 64 - 1) string_split_options.none ∧
    split ([] : List Nat) [45] (2 ^ 64 - 1) string_split_options.none ≠ [([] : List Nat)] ∧
    [98, 99, 45, 100] ∈ split [97, 45, 98, 45, 99, 45, 100] [45] 2 string_split_options.none ∧
    split [98, 99, 45, 100] [45] (2 ^ 64 - 1) string_split_options.none ≠
      [[98, 99, 45, 100]] := by
  decide

/-- C7 (amended): every token of split(text, separators, count, policy) that is
non-empty and contains no character of the effective separator set — which is
every token except empty tokens and the truncated final token — re-splits with
the same separator set, the unbounded count 2^64 - 1 and the same policy into
the one-element sequence holding exactly that token. -/
theorem C7_resplit_clean_token (str separators : List Nat) (count : Nat)
    (options : string_split_options) (t : List Nat)
    (hmem : t ∈ split str separators count options) (hne : t ≠ [])
    (hclean : has_sep (split_char_separators separators) t = false) :
    split t separators (2 ^ 64 - 1) options = [t] := by
  rw [split, if_neg (by norm_num), if_neg (by norm_num)]
  rw [splitAux_sep_free_input (split_char_separators separators) (2 ^ 64 - 1) options
    t [] [] hne hclean (by norm_num)]
  simp

/-- C7 witness: the token "a" of split("a", {'-'}, 5, keep-empty) is non-empty
and separator-free, and re-splitting it with the unbounded count returns ["a"]. -/
theorem C7_resplit_clean_token_witness :
    [97] ∈ split [97] [45] 5 string_split_options.none ∧
    split [97] [45] (2 ^ 64 - 1) string_split_options.none = [[97]] :=
  ⟨by decide,
    C7_resplit_clean_token [97] [45] 5 string_split_options.none [97]
      (by decide) (by decide) (by decide)⟩

end xtd
